import Mathlib

/-!
Verification of the RHEED capture orchestration and sequence-storage subsystem.

The definitions below are shallow embeddings of the Python sources:
* `CaptureService.make` embeds `CaptureService.__init__`
  (rheed_capture/viewmodels/capture_service.py).
* The storage model embeds `ExperimentStorage` (rheed_capture/models/io/storage.py).
* The capture-run trace semantics embeds `CaptureService.run`,
  `_capture_with_retry` and `_execute_single_capture`.
* The device model embeds `CameraDevice.grab_one`
  (rheed_capture/models/hardware/camera_device.py).
* The preview model embeds `PreviewWorker` (rheed_capture/services/preview_worker.py)
  and `PreviewViewModel.resume_preview` (rheed_capture/viewmodels/preview_viewmodel.py).

Python floats are modelled as rationals, Python ints as integers, directory and
file names as lists of characters, and the filesystem as an explicit finite map
from branch-directory names to their child-directory names.
-/

namespace RheedCapture

/-! ## CaptureService shot-list construction (capture_service.py, `__init__`)

`exposure_list = sorted(exposure_list)`, `gain_list = sorted(gain_list)`,
`self.conditions = list(itertools.product(exposure_list, gain_list))`,
`self.total_shots = len(self.conditions)`.  `itertools.product(a, b)` enumerates
`(x, y)` with `x` ranging over `a` in the outer loop and `y` over `b` in the
inner loop, which is exactly `flatMap` of `map`. -/

structure CaptureService where
  conditions : List (ℚ × ℤ)
  total_shots : ℕ

def CaptureService.make (exposure_list : List ℚ) (gain_list : List ℤ) : CaptureService :=
  let exposure_sorted := exposure_list.insertionSort (· ≤ ·)
  let gain_sorted := gain_list.insertionSort (· ≤ ·)
  let conds := exposure_sorted.flatMap (fun e => gain_sorted.map (fun g => (e, g)))
  { conditions := conds, total_shots := conds.length }

/-! ## ExperimentStorage (models/io/storage.py)

Directory names are lists of characters.  The filesystem visible to the class
is modelled relative to the root directory: a flag for the root's existence and
an association list from branch-directory names to the names of their child
directories (only directories are modelled; `iterdir` + `is_dir` filters files
out anyway). -/

def digitsToNat (l : List Char) : ℕ :=
  l.foldl (fun a c => a * 10 + (c.toNat - 48)) 0

/-- `max(suffixes, default=d)` of Python: the true maximum of a nonempty list,
the default for an empty one. -/
def listMax (l : List ℕ) (dflt : ℕ) : ℕ :=
  match l with
  | [] => dflt
  | x :: xs => xs.foldl max x

/-- Strip an exact leading segment: `some rest` when `s = pre ++ rest`. -/
def stripPre : List Char → List Char → Option (List Char)
  | [], s => some s
  | _ :: _, [] => none
  | p :: ps, c :: cs => if c = p then stripPre ps cs else none

/-- The branch-name regex of `_search_max_branch`:
`^date(?:-(\d+))?$` with `int(match.group(1) or 1)`. -/
def parseBranchName (date s : List Char) : Option ℕ :=
  match stripPre date s with
  | some [] => some 1
  | some (c :: rest) =>
      if c = '-' ∧ rest ≠ [] ∧ rest.all (·.isDigit) then some (digitsToNat rest) else none
  | none => none

/-- The sequence-name regex of `_search_max_sequence`: `image_(\d{3})` used with
`re.match`, i.e. anchored at the start only: exactly the three characters after
`image_` must be digits, anything may follow. -/
def parseSeqName (s : List Char) : Option ℕ :=
  match stripPre ("image_".toList) s with
  | some (a :: b :: c :: _) =>
      if a.isDigit ∧ b.isDigit ∧ c.isDigit then some (digitsToNat [a, b, c]) else none
  | _ => none

/-- Python's `f"{n:03d}"` for a natural number. -/
def pad3 (n : ℕ) : List Char :=
  let ds := Nat.toDigits 10 n
  List.replicate (3 - ds.length) '0' ++ ds

structure Fs where
  rootExists : Bool
  branches : List (List Char × List (List Char))
deriving DecidableEq

def Fs.rootChildren (fs : Fs) : List (List Char) := fs.branches.map Prod.fst

def Fs.hasBranch (fs : Fs) (n : List Char) : Bool := fs.branches.any (fun b => b.1 == n)

def lookupEntry (b : List Char) :
    List (List Char × List (List Char)) → Option (List (List Char))
  | [] => none
  | e :: rest => if e.1 == b then some e.2 else lookupEntry b rest

/-- Add child `sub` to the entry of branch `b` (mkdir with exist_ok). -/
def updateEntries (b sub : List Char) :
    List (List Char × List (List Char)) → List (List Char × List (List Char))
  | [] => []
  | e :: rest =>
      if e.1 == b then
        (e.1, if e.2.any (· == sub) then e.2 else e.2 ++ [sub]) :: updateEntries b sub rest
      else e :: updateEntries b sub rest

def Fs.childrenOf (fs : Fs) (n : List Char) : List (List Char) :=
  (lookupEntry n fs.branches).getD []

def Fs.ensureRoot (fs : Fs) : Fs := { fs with rootExists := true }

def Fs.mkBranch (fs : Fs) (n : List Char) : Fs :=
  if fs.hasBranch n then fs else { fs with branches := fs.branches ++ [(n, [])] }

def Fs.mkSubdir (fs : Fs) (b sub : List Char) : Fs :=
  { fs with branches := updateEntries b sub fs.branches }

def Fs.hasSubdir (fs : Fs) (b sub : List Char) : Bool :=
  (fs.childrenOf b).any (· == sub)

structure ExperimentStorage where
  fs : Fs
  date_str : List Char
  branch_number : ℕ
  sequence_counter : ℕ
deriving DecidableEq

/-- `get_current_experiment_dir`'s name component: `date` for branch 1,
`date-n` otherwise. -/
def expDirNameOf (date : List Char) (b : ℕ) : List Char :=
  if b = 1 then date else date ++ '-' :: Nat.toDigits 10 b

/-- `get_current_sequence_dir`'s name component: `image_nnn`, zero-padded to 3. -/
def seqDirNameOf (c : ℕ) : List Char := "image_".toList ++ pad3 c

def ExperimentStorage.get_current_experiment_dir (s : ExperimentStorage) : List Char :=
  expDirNameOf s.date_str s.branch_number

def ExperimentStorage.get_current_sequence_dir (s : ExperimentStorage) : List Char :=
  seqDirNameOf s.sequence_counter

/-- `_search_max_branch`: max suffix of the root children matching the branch
regex, default 1. -/
def searchMaxBranch (fs : Fs) (date : List Char) : ℕ :=
  listMax (fs.rootChildren.filterMap (parseBranchName date)) 1

/-- `_search_max_sequence`: 0 when the branch directory does not exist,
otherwise max matched `image_nnn` suffix of its children, default 0. -/
def searchMaxSequence (fs : Fs) (branchName : List Char) : ℕ :=
  if fs.hasBranch branchName then
    listMax ((fs.childrenOf branchName).filterMap parseSeqName) 0
  else 0

/-- `set_root_dir`: when the new root does not exist only the root reference is
replaced, the derived numbers are left as they are; otherwise both numbers are
re-derived from the scan (the sequence scan uses the freshly derived branch). -/
def ExperimentStorage.set_root_dir (s : ExperimentStorage) (fs : Fs) : ExperimentStorage :=
  if fs.rootExists then
    let b := searchMaxBranch fs s.date_str
    let q := searchMaxSequence fs (expDirNameOf s.date_str b)
    { fs := fs, date_str := s.date_str, branch_number := b, sequence_counter := q }
  else
    { s with fs := fs }

/-- `__init__`: branch 1, counter 0, then `set_root_dir`. -/
def ExperimentStorage.construct (fs : Fs) (date : List Char) : ExperimentStorage :=
  ExperimentStorage.set_root_dir ⟨fs, date, 1, 0⟩ fs

def ExperimentStorage.increment_branch (s : ExperimentStorage) : ExperimentStorage :=
  { s with branch_number := s.branch_number + 1, sequence_counter := 0 }

/-- `start_new_sequence`: mkdir root, mkdir branch, increment the counter,
mkdir the new sequence directory. -/
def ExperimentStorage.start_new_sequence (s : ExperimentStorage) : ExperimentStorage :=
  let fs1 := s.fs.ensureRoot
  let bn := expDirNameOf s.date_str s.branch_number
  let fs2 := fs1.mkBranch bn
  let c := s.sequence_counter + 1
  let fs3 := fs2.mkSubdir bn (seqDirNameOf c)
  { s with fs := fs3, sequence_counter := c }

/-- The value returned by a successful `save_frame` (the file write delegated
to `TiffWriter.save`); the error case models the `RuntimeError` raised when
`get_current_sequence_dir().exists()` is false, with no write performed. -/
structure SavedFrame where
  expDir : List Char
  seqDir : List Char
  seqNumber : ℕ
deriving DecidableEq

def ExperimentStorage.save_frame (s : ExperimentStorage) : Except Unit SavedFrame :=
  if s.fs.hasSubdir (expDirNameOf s.date_str s.branch_number)
      (seqDirNameOf s.sequence_counter) then
    Except.ok
      ⟨expDirNameOf s.date_str s.branch_number, seqDirNameOf s.sequence_counter,
        s.sequence_counter⟩
  else
    Except.error ()

/-! ## CameraDevice.grab_one (models/hardware/camera_device.py)

`grab_one` raises a `RuntimeError` when the camera is disconnected or still in
continuous mode; once the SDK call itself runs, a successful grab yields the
converted array, a failed grab result yields `None`, and a `pylon.GenericException`
raised during the grab is caught inside `grab_one` and also yields `None`. -/

inductive CamFault
  | notConnected
  | busyGrabbing
deriving DecidableEq

/-- What the SDK does for one `GrabOne` call. -/
inductive GrabAttempt
  | succeeded (f : ℕ)
  | failedRes
  | raisedExc (code : ℕ)
deriving DecidableEq

def grab_one (connected grabbing : Bool) (r : GrabAttempt) : Except CamFault (Option ℕ) :=
  if connected = false then Except.error CamFault.notConnected
  else if grabbing = true then Except.error CamFault.busyGrabbing
  else
    match r with
    | GrabAttempt.succeeded f => Except.ok (some f)
    | GrabAttempt.failedRes => Except.ok none
    | GrabAttempt.raisedExc _ => Except.ok none

/-! ## CaptureService.run / retry loop (capture_service.py)

The run is given as a trace semantics: the camera is an oracle mapping the
index of each `grab_one` call to what that call does, cancellation is the
(monotone) flag read at the check before shot `i`, modelled as
`cancelFrom ≤ i`.  Events record the externally visible effects: progress
signals, `grab_one` calls, `save_frame` calls, the `error_occurred` emission
and the one `sequence_finished` emission. -/

/-- How one `grab_one` call looks to the sequencer: a frame, a `None` return,
or a raised exception (set-exposure/set-gain are modelled as succeeding; the
claims under test all fail at the grab). -/
inductive AttemptResult
  | frame (f : ℕ)
  | noneFrame
  | raised (e : CamFault)
deriving DecidableEq

def AttemptResult.isFail : AttemptResult → Bool
  | AttemptResult.frame _ => false
  | AttemptResult.noneFrame => true
  | AttemptResult.raised _ => true

/-- Routing a device-level grab through `grab_one` to the sequencer. -/
def attemptViaDevice (connected grabbing : Bool) (r : GrabAttempt) : AttemptResult :=
  match grab_one connected grabbing r with
  | Except.ok (some f) => AttemptResult.frame f
  | Except.ok none => AttemptResult.noneFrame
  | Except.error e => AttemptResult.raised e

/-- The sequencer-side error of one attempt: its own null-frame `RuntimeError`
(`_raise_grab_none_error`) or the propagated device exception. -/
inductive CapErr
  | nullFrame
  | dev (e : CamFault)
deriving DecidableEq

/-- The terminal error raised by `_raise_max_retry_error`: the failing
exposure and gain in the message, the last underlying error as the cause. -/
structure TermErr where
  expo : ℚ
  gain : ℤ
  cause : Option CapErr
deriving DecidableEq

inductive Ev
  | startSeq
  | progress (i total : ℕ)
  | grab
  | save (f : ℕ) (expo : ℚ) (gain : ℤ)
  | errorEmitted
  | finished (success : Bool) (dir : List Char)
deriving DecidableEq

/-- `_execute_single_capture`: set parameters, grab, raise on `None`,
otherwise save. -/
def execute_single_capture (r : AttemptResult) (expo : ℚ) (gain : ℤ) :
    List Ev × Except CapErr Unit :=
  match r with
  | AttemptResult.frame f => ([Ev.grab, Ev.save f expo gain], Except.ok ())
  | AttemptResult.noneFrame => ([Ev.grab], Except.error CapErr.nullFrame)
  | AttemptResult.raised e => ([Ev.grab], Except.error (CapErr.dev e))

/-- The error an all-failing attempt contributes as `last_error`. -/
def errOf : AttemptResult → CapErr
  | AttemptResult.frame _ => CapErr.nullFrame
  | AttemptResult.noneFrame => CapErr.nullFrame
  | AttemptResult.raised e => CapErr.dev e

def max_retries : ℕ := 3

/-- `_capture_with_retry`: up to `max_retries` attempts, remembering the last
error; when the budget is exhausted, the terminal error.  `k` is the index of
the next `grab_one` call; the returned ℕ is the index after this shot. -/
def capture_with_retry (oracle : ℕ → AttemptResult) (expo : ℚ) (gain : ℤ) :
    ℕ → ℕ → Option CapErr → List Ev × ℕ × Except TermErr Unit
  | 0, k, last => ([], k, Except.error ⟨expo, gain, last⟩)
  | n + 1, k, _ =>
      let step := execute_single_capture (oracle k) expo gain
      match step.2 with
      | Except.ok _ => (step.1, k + 1, Except.ok ())
      | Except.error err =>
          let rest := capture_with_retry oracle expo gain n (k + 1) (some err)
          (step.1 ++ rest.1, rest.2.1, rest.2.2)

inductive RunErr
  | interrupted
  | term (t : TermErr)
deriving DecidableEq

/-- The shot loop of `run`: per shot, the cancellation check
(`_check_cancelled`, raising `InterruptedError`), the progress emission, then
the shot with retry; a terminal error aborts the remaining shots. -/
def run_shots (oracle : ℕ → AttemptResult) (cancelFrom total : ℕ) :
    List (ℚ × ℤ) → ℕ → ℕ → List Ev × Except RunErr Unit
  | [], _, _ => ([], Except.ok ())
  | (e, g) :: rest, i, k =>
      if cancelFrom ≤ i then ([], Except.error RunErr.interrupted)
      else
        let r := capture_with_retry oracle e g max_retries k none
        match r.2.2 with
        | Except.error t => (Ev.progress i total :: r.1, Except.error (RunErr.term t))
        | Except.ok _ =>
            let tail := run_shots oracle cancelFrom total rest (i + 1) r.2.1
            (Ev.progress i total :: r.1 ++ tail.1, tail.2)

inductive Outcome
  | success (dir : List Char)
  | cancelled
  | failed (t : TermErr)
deriving DecidableEq

/-- `run`: start the sequence, loop over conditions; on `InterruptedError` or a
device error emit `error_occurred`; in all cases emit `sequence_finished`
exactly once from the `finally` block, with the success flag. -/
def CaptureService.run (svc : CaptureService) (oracle : ℕ → AttemptResult)
    (cancelFrom : ℕ) (dirName : List Char) : List Ev × Outcome :=
  let r := run_shots oracle cancelFrom svc.total_shots svc.conditions 1 0
  match r.2 with
  | Except.ok _ =>
      (Ev.startSeq :: r.1 ++ [Ev.finished true dirName], Outcome.success dirName)
  | Except.error RunErr.interrupted =>
      (Ev.startSeq :: r.1 ++ [Ev.errorEmitted, Ev.finished false dirName], Outcome.cancelled)
  | Except.error (RunErr.term t) =>
      (Ev.startSeq :: r.1 ++ [Ev.errorEmitted, Ev.finished false dirName], Outcome.failed t)

def Ev.isGrab : Ev → Bool
  | Ev.grab => true
  | _ => false

def Ev.isSave : Ev → Bool
  | Ev.save .. => true
  | _ => false

def Ev.isFinished : Ev → Bool
  | Ev.finished .. => true
  | _ => false

def countGrab (l : List Ev) : ℕ := l.countP Ev.isGrab

def countSave (l : List Ev) : ℕ := l.countP Ev.isSave

def countFinished (l : List Ev) : ℕ := l.countP Ev.isFinished

/-! ## PreviewWorker (services/preview_worker.py)

One pass of the `while self._is_running` body is `loop_iteration`.  The
caller-facing methods only set flags.  The device state tracks whether
continuous acquisition (`IsGrabbing`) is active, plus the current exposure and
gain settings (for the resume model). -/

structure Device where
  exposure : ℚ
  gain : ℤ
  grabbing : Bool
deriving DecidableEq

structure Worker where
  isRunning : Bool
  pauseRequested : Bool
  isPaused : Bool
  processingEnabled : Bool
deriving DecidableEq

/-- Per-iteration environment: what `retrieve_preview_frame` returns and
whether the transform/publish block raises. -/
structure PrevOracle where
  retrieved : Option ℕ
  procFails : Bool
deriving DecidableEq

inductive PEv
  | stopGrab
  | startGrab
  | pausedSignal
  | histReady
  | imageReady
  | errorEmitted
  | sleep
deriving DecidableEq

/-- One iteration of `PreviewWorker.run`'s loop body. -/
def loop_iteration (w : Worker) (d : Device) (o : PrevOracle) :
    Worker × Device × List PEv :=
  if w.isRunning = false then (w, d, [])
  else if w.pauseRequested = true then
    ({ w with isPaused := true, pauseRequested := false },
      { d with grabbing := false },
      [PEv.stopGrab, PEv.pausedSignal, PEv.sleep])
  else if w.isPaused = true then (w, d, [PEv.sleep])
  else
    let d1 := { d with grabbing := true }
    match o.retrieved with
    | none => (w, d1, [PEv.startGrab])
    | some _ =>
        if o.procFails then (w, d1, [PEv.startGrab, PEv.errorEmitted])
        else (w, d1, [PEv.startGrab, PEv.histReady, PEv.imageReady])

def Worker.request_pause (w : Worker) : Worker := { w with pauseRequested := true }

def Worker.resume (w : Worker) : Worker := { w with isPaused := false }

def Worker.stop (w : Worker) : Worker := { w with isRunning := false }

def Worker.set_processing_enabled (w : Worker) (b : Bool) : Worker :=
  { w with processingEnabled := b }

/-- The actions that can touch the worker: a loop iteration from the worker
thread, or the caller-side `request_pause`, `resume`, `stop`. -/
inductive PAct
  | iterate (o : PrevOracle)
  | reqPause
  | resumeCall
  | stopCall

def pstep : Worker × Device → PAct → (Worker × Device) × List PEv
  | (w, d), PAct.iterate o =>
      let r := loop_iteration w d o
      ((r.1, r.2.1), r.2.2)
  | (w, d), PAct.reqPause => ((w.request_pause, d), [])
  | (w, d), PAct.resumeCall => ((w.resume, d), [])
  | (w, d), PAct.stopCall => ((w.stop, d), [])

/-! ## Resume paths (preview_viewmodel.py and views/main_window.py)

`PreviewViewModel.resume_preview` restores the device exposure, gain and the
worker processing flag from the view model's stored values, then calls
`PreviewWorker.resume`; `MainWindow._on_sequence_finished` calls
`PreviewWorker.resume` directly. -/

structure PVMState where
  exposure : ℚ
  gain : ℤ
  claheEnabled : Bool
deriving DecidableEq

inductive REv
  | setExpo (v : ℚ)
  | setGain (v : ℤ)
  | setProc (b : Bool)
  | unpaused
deriving DecidableEq

/-- `PreviewWorker.resume`: clears the paused flag; nothing else. -/
def worker_resume_call (w : Worker) (d : Device) : (Worker × Device) × List REv :=
  (({ w with isPaused := false }, d), [REv.unpaused])

/-- `PreviewViewModel.resume_preview`. -/
def resume_preview (vm : PVMState) (w : Worker) (d : Device) :
    (Worker × Device) × List REv :=
  let d1 := { d with exposure := vm.exposure }
  let d2 := { d1 with gain := vm.gain }
  let w1 := { w with processingEnabled := vm.claheEnabled }
  let r := worker_resume_call w1 d2
  (r.1, [REv.setExpo vm.exposure, REv.setGain vm.gain, REv.setProc vm.claheEnabled] ++ r.2)

/-- `MainWindow._on_sequence_finished`'s preview-resume step: it invokes the
worker's `resume` directly. -/
def on_sequence_finished (w : Worker) (d : Device) : (Worker × Device) × List REv :=
  worker_resume_call w d

/-! ## Theorems -/

theorem stripPre_append (pre rest : List Char) : stripPre pre (pre ++ rest) = some rest := by
  induction pre with
  | nil => rfl
  | cons p ps ih => simp [stripPre, ih]

/-- Claim C1: the constructed shot list is the cartesian product of the sorted
exposure list (outer) and the sorted gain list (inner); `total_shots` is
`|E| * |G|`; the sorted lists are ascending permutations of the inputs, so
duplicates are kept, not deduplicated. -/
theorem conditions_cartesian_product (E : List ℚ) (G : List ℤ) :
    (CaptureService.make E G).conditions
        = (E.insertionSort (· ≤ ·)) ×ˢ (G.insertionSort (· ≤ ·))
      ∧ (CaptureService.make E G).total_shots = E.length * G.length
      ∧ (CaptureService.make E G).conditions.length = E.length * G.length
      ∧ List.Sorted (· ≤ ·) (E.insertionSort (· ≤ ·))
      ∧ List.Sorted (· ≤ ·) (G.insertionSort (· ≤ ·))
      ∧ List.Perm (E.insertionSort (· ≤ ·)) E
      ∧ List.Perm (G.insertionSort (· ≤ ·)) G := by
  have hprod : (CaptureService.make E G).conditions
      = (E.insertionSort (· ≤ ·)) ×ˢ (G.insertionSort (· ≤ ·)) := rfl
  have hpe : List.Perm (E.insertionSort (· ≤ ·)) E := List.perm_insertionSort _ E
  have hpg : List.Perm (G.insertionSort (· ≤ ·)) G := List.perm_insertionSort _ G
  have hlen : (CaptureService.make E G).conditions.length = E.length * G.length := by
    rw [hprod, List.length_product, hpe.length_eq, hpg.length_eq]
  exact ⟨hprod, hlen, hlen, List.sorted_insertionSort _ E, List.sorted_insertionSort _ G,
    hpe, hpg⟩

theorem execute_single_capture_fail (r : AttemptResult) (e : ℚ) (g : ℤ)
    (h : r.isFail = true) :
    execute_single_capture r e g = ([Ev.grab], Except.error (errOf r)) := by
  cases r <;> simp_all [AttemptResult.isFail, execute_single_capture, errOf]

theorem capture_with_retry_allfail (oracle : ℕ → AttemptResult) (e : ℚ) (g : ℤ)
    (hfail : ∀ n, (oracle n).isFail = true) :
    ∀ (n k : ℕ) (last : Option CapErr),
      capture_with_retry oracle e g (n + 1) k last
        = (List.replicate (n + 1) Ev.grab, k + (n + 1),
            Except.error ⟨e, g, some (errOf (oracle (k + n)))⟩) := by
  intro n
  induction n with
  | zero =>
      intro k last
      simp [capture_with_retry, execute_single_capture_fail (oracle k) e g (hfail k)]
  | succ m ih =>
      intro k last
      rw [capture_with_retry, execute_single_capture_fail (oracle k) e g (hfail k)]
      simp only [ih (k + 1)]
      simp [List.replicate_succ]
      constructor
      · omega
      · have : k + 1 + m = k + (m + 1) := by omega
        rw [this]

/-- Claim C2: when every grab attempt fails and the run is not cancelled, the
first shot is attempted exactly `max_retries` (3) times, nothing is saved, and
the run aborts with a terminal error carrying the failing exposure and gain and
the last attempt's underlying error as its cause; no later shot is started. -/
theorem run_all_attempts_fail (E : List ℚ) (G : List ℤ) (oracle : ℕ → AttemptResult)
    (cancelFrom : ℕ) (dirName : List Char) (e : ℚ) (g : ℤ) (rest : List (ℚ × ℤ))
    (hfail : ∀ n, (oracle n).isFail = true)
    (hconds : (CaptureService.make E G).conditions = (e, g) :: rest)
    (hcancel : 1 < cancelFrom) :
    ((CaptureService.make E G).run oracle cancelFrom dirName).1
        = [Ev.startSeq, Ev.progress 1 (CaptureService.make E G).total_shots,
            Ev.grab, Ev.grab, Ev.grab, Ev.errorEmitted, Ev.finished false dirName]
      ∧ ((CaptureService.make E G).run oracle cancelFrom dirName).2
          = Outcome.failed ⟨e, g, some (errOf (oracle 2))⟩
      ∧ countGrab ((CaptureService.make E G).run oracle cancelFrom dirName).1 = max_retries
      ∧ countSave ((CaptureService.make E G).run oracle cancelFrom dirName).1 = 0 := by
  have hnc : ¬ (cancelFrom ≤ 1) := by omega
  have hretry := capture_with_retry_allfail oracle e g hfail 2 0 none
  rw [CaptureService.run, hconds, run_shots]
  rw [if_neg hnc]
  simp only [max_retries] at *
  rw [hretry]
  simp [countGrab, countSave, Ev.isGrab, Ev.isSave, List.replicate]

/-- Witness for `run_all_attempts_fail` at `E = [10]`, `G = [0]`, an oracle
that always returns a null frame, and no cancellation. -/
theorem run_all_attempts_fail_witness :
    (∀ n : ℕ, ((fun _ : ℕ => AttemptResult.noneFrame) n).isFail = true)
    ∧ (CaptureService.make [10] [0]).conditions = [((10 : ℚ), (0 : ℤ))]
    ∧ (1 : ℕ) < 5
    ∧ countGrab ((CaptureService.make [10] [0]).run (fun _ => AttemptResult.noneFrame) 5 []).1
        = max_retries
    ∧ ((CaptureService.make [10] [0]).run (fun _ => AttemptResult.noneFrame) 5 []).2
        = Outcome.failed ⟨10, 0, some CapErr.nullFrame⟩ := by
  have h := run_all_attempts_fail [10] [0] (fun _ => AttemptResult.noneFrame) 5 [] 10 0 []
    (fun _ => rfl) (by decide) (by decide)
  exact ⟨fun _ => rfl, by decide, by decide, h.2.2.1, h.2.1⟩

/-- Claim C5: in a 5-shot run with every grab succeeding and the cancel flag
set between the completion of shot 2 and the check before shot 3, exactly 2
frames are saved, the outcome is the cancellation outcome (distinct from every
device-failure outcome), and `sequence_finished` fires exactly once, with
`success = false`. -/
theorem run_cancelled_after_two_shots (E : List ℚ) (G : List ℤ)
    (oracle : ℕ → AttemptResult) (fr : ℕ → ℕ) (dirName : List Char)
    (s1 s2 s3 s4 s5 : ℚ × ℤ)
    (hok : ∀ n, oracle n = AttemptResult.frame (fr n))
    (hconds : (CaptureService.make E G).conditions = [s1, s2, s3, s4, s5]) :
    countSave ((CaptureService.make E G).run oracle 3 dirName).1 = 2
    ∧ ((CaptureService.make E G).run oracle 3 dirName).2 = Outcome.cancelled
    ∧ (∀ t : TermErr,
        ((CaptureService.make E G).run oracle 3 dirName).2 ≠ Outcome.failed t)
    ∧ countFinished ((CaptureService.make E G).run oracle 3 dirName).1 = 1
    ∧ Ev.finished false dirName ∈ ((CaptureService.make E G).run oracle 3 dirName).1 := by
  obtain ⟨e1, g1⟩ := s1
  obtain ⟨e2, g2⟩ := s2
  rw [CaptureService.run, hconds]
  rw [run_shots, if_neg (by omega : ¬ (3 ≤ 1))]
  simp only [max_retries, capture_with_retry, hok 0, execute_single_capture]
  rw [run_shots, if_neg (by omega : ¬ (3 ≤ 1 + 1))]
  simp only [max_retries, capture_with_retry, hok 1, execute_single_capture]
  rw [run_shots, if_pos (by omega : 3 ≤ 1 + 1 + 1)]
  simp [countSave, countFinished, Ev.isSave, Ev.isFinished]

/-- Witness for `run_cancelled_after_two_shots` at `E = [1, 2, 3, 4, 5]`,
`G = [0]`, an oracle that always yields a frame, cancellation at shot 3. -/
theorem run_cancelled_after_two_shots_witness :
    (∀ n : ℕ, (fun k : ℕ => AttemptResult.frame k) n = AttemptResult.frame n)
    ∧ (CaptureService.make [1, 2, 3, 4, 5] [0]).conditions
        = [((1 : ℚ), (0 : ℤ)), (2, 0), (3, 0), (4, 0), (5, 0)]
    ∧ countSave ((CaptureService.make [1, 2, 3, 4, 5] [0]).run
        (fun k : ℕ => AttemptResult.frame k) 3 ['d']).1 = 2
    ∧ ((CaptureService.make [1, 2, 3, 4, 5] [0]).run
        (fun k : ℕ => AttemptResult.frame k) 3 ['d']).2 = Outcome.cancelled := by
  have h := run_cancelled_after_two_shots [1, 2, 3, 4, 5] [0]
    (fun k : ℕ => AttemptResult.frame k) (fun k => k) ['d']
    (1, 0) (2, 0) (3, 0) (4, 0) (5, 0) (fun _ => rfl) (by decide)
  exact ⟨fun _ => rfl, by decide, h.1, h.2.1⟩

/-- Claim C7: the one-shot paused notification is emitted only by the loop
iteration itself (never by `request_pause`, `resume` or `stop`), only when a
pause was requested, and in the same iteration the device's continuous mode is
stopped before the notification, so the device is idle whenever it fires. -/
theorem paused_signal_only_from_loop (s : Worker × Device) (a : PAct)
    (h : PEv.pausedSignal ∈ (pstep s a).2) :
    (∃ o, a = PAct.iterate o)
    ∧ s.1.isRunning = true
    ∧ s.1.pauseRequested = true
    ∧ (pstep s a).2 = [PEv.stopGrab, PEv.pausedSignal, PEv.sleep]
    ∧ (pstep s a).1.2.grabbing = false
    ∧ (pstep s a).1.1.isPaused = true
    ∧ (pstep s a).1.1.pauseRequested = false := by
  obtain ⟨w, d⟩ := s
  cases a with
  | reqPause => simp [pstep] at h
  | resumeCall => simp [pstep] at h
  | stopCall => simp [pstep] at h
  | iterate o =>
      by_cases hrun : w.isRunning = false
      · simp [pstep, loop_iteration, hrun] at h
      · have hrun' : w.isRunning = true := by
          cases hb : w.isRunning
          · exact absurd hb hrun
          · rfl
        by_cases hpr : w.pauseRequested = true
        · refine ⟨⟨o, rfl⟩, hrun', hpr, ?_, ?_, ?_, ?_⟩ <;>
            simp [pstep, loop_iteration, hrun', hpr]
        · by_cases hp : w.isPaused = true
          · simp [pstep, loop_iteration, hrun', hpr, hp] at h
          · obtain ⟨ret, pf⟩ := o
            cases ret <;> cases pf <;>
              simp [pstep, loop_iteration, hrun', hpr, hp] at h

/-- Witness for `paused_signal_only_from_loop`: a running worker with a pending
pause request and the device in continuous mode. -/
theorem paused_signal_only_from_loop_witness :
    PEv.pausedSignal ∈
      (pstep (⟨true, true, false, false⟩, ⟨50, 0, true⟩) (PAct.iterate ⟨none, false⟩)).2
    ∧ (pstep (⟨true, true, false, false⟩, ⟨50, 0, true⟩)
        (PAct.iterate ⟨none, false⟩)).1.2.grabbing = false
    ∧ (pstep (⟨true, true, false, false⟩, ⟨50, 0, true⟩)
        (PAct.iterate ⟨none, false⟩)).1.1.isPaused = true := by
  have h := paused_signal_only_from_loop (⟨true, true, false, false⟩, ⟨50, 0, true⟩)
    (PAct.iterate ⟨none, false⟩) (by decide)
  exact ⟨by decide, h.2.2.2.2.1, h.2.2.2.2.2.1⟩

/-- Claim C10: on a connected camera not in continuous mode, an SDK exception
raised during the grab is caught inside `grab_one`, which returns `None`
instead of propagating; the sequencer therefore sees the null-frame case, and
after retries are exhausted the terminal error's cause is the sequencer's own
null-frame error, carrying nothing of the original SDK exception. -/
theorem grab_exception_becomes_null_frame (code : ℕ) (e : ℚ) (g : ℤ) (codes : ℕ → ℕ) :
    grab_one true false (GrabAttempt.raisedExc code) = Except.ok none
    ∧ attemptViaDevice true false (GrabAttempt.raisedExc code) = AttemptResult.noneFrame
    ∧ (execute_single_capture (attemptViaDevice true false (GrabAttempt.raisedExc code)) e g).2
        = Except.error CapErr.nullFrame
    ∧ capture_with_retry
        (fun k => attemptViaDevice true false (GrabAttempt.raisedExc (codes k)))
        e g max_retries 0 none
        = ([Ev.grab, Ev.grab, Ev.grab], 3, Except.error ⟨e, g, some CapErr.nullFrame⟩)
    ∧ (∀ f : CamFault, CapErr.nullFrame ≠ CapErr.dev f) := by
  have hretry := capture_with_retry_allfail
    (fun k => attemptViaDevice true false (GrabAttempt.raisedExc (codes k))) e g
    (fun _ => rfl) 2 0 none
  refine ⟨rfl, rfl, rfl, ?_, fun f => by simp⟩
  simp only [max_retries]
  rw [hretry]
  simp [List.replicate, errOf, attemptViaDevice, grab_one]

theorem parseBranchName_self (date : List Char) : parseBranchName date date = some 1 := by
  have h : stripPre date date = some [] := by
    simpa using stripPre_append date []
  simp [parseBranchName, h]

theorem parseBranchName_dash (date ds : List Char) (h1 : ds ≠ [])
    (h2 : ds.all (·.isDigit) = true) :
    parseBranchName date (date ++ '-' :: ds) = some (digitsToNat ds) := by
  have h : stripPre date (date ++ '-' :: ds) = some ('-' :: ds) := stripPre_append date _
  simp [parseBranchName, h, h1, h2]

theorem Fs.hasBranch_mkBranch (fs : Fs) (n : List Char) :
    (fs.mkBranch n).hasBranch n = true := by
  by_cases h : fs.hasBranch n = true
  · simp [Fs.mkBranch, h]
  · have hstep : ((fs.branches ++ [(n, [])]).any fun b => b.1 == n) = true := by
      simp [List.any_append]
    unfold Fs.mkBranch
    rw [if_neg h]
    exact hstep

theorem lookupEntry_updateEntries (b sub : List Char) :
    ∀ l : List (List Char × List (List Char)),
      (l.any fun e => e.1 == b) = true →
      (((lookupEntry b (updateEntries b sub l)).getD []).any (· == sub)) = true := by
  intro l
  induction l with
  | nil => simp
  | cons e rest ih =>
      intro h
      by_cases hb : (e.1 == b) = true
      · rw [updateEntries, if_pos hb]
        rw [lookupEntry, if_pos hb]
        by_cases hs : (e.2.any (· == sub)) = true
        · simp [hs]
        · simp [hs, List.any_append]
      · have h' : (rest.any fun x => x.1 == b) = true := by
          simpa [List.any_cons, hb] using h
        rw [updateEntries, if_neg hb]
        rw [lookupEntry, if_neg hb]
        exact ih h'

theorem Fs.hasSubdir_mkSubdir (fs : Fs) (b sub : List Char)
    (h : fs.hasBranch b = true) :
    (fs.mkSubdir b sub).hasSubdir b sub = true := by
  exact lookupEntry_updateEntries b sub fs.branches h

theorem Fs.hasBranch_ensureRoot (fs : Fs) (n : List Char) :
    (fs.ensureRoot).hasBranch n = fs.hasBranch n := rfl

/-- Claim C3 (amended): `set_root_dir` on an existing root re-derives branch
and sequence from the scan — an empty root yields branch 1 / sequence 0 with
the bare dated directory, a root holding both the bare dated directory and its
`-2` sibling yields branch 2; but when the given root does NOT exist, the
previously held branch and sequence values are kept unchanged (they equal
1 and 0 only when nothing had been derived or incremented before). -/
theorem set_root_dir_rescan :
    (∀ s : ExperimentStorage,
        (s.set_root_dir ⟨true, []⟩).branch_number = 1
        ∧ (s.set_root_dir ⟨true, []⟩).sequence_counter = 0
        ∧ (s.set_root_dir ⟨true, []⟩).get_current_experiment_dir = s.date_str)
    ∧ (∀ (s : ExperimentStorage) (c1 c2 : List (List Char)),
        (s.set_root_dir
            ⟨true, [(s.date_str, c1), (s.date_str ++ ['-', '2'], c2)]⟩).branch_number = 2
        ∧ (s.set_root_dir
            ⟨true, [(s.date_str, c1), (s.date_str ++ ['-', '2'], c2)]⟩).get_current_experiment_dir
            = s.date_str ++ ['-', '2'])
    ∧ (∀ (fs : Fs) (s : ExperimentStorage), fs.rootExists = false →
        (s.set_root_dir fs).branch_number = s.branch_number
        ∧ (s.set_root_dir fs).sequence_counter = s.sequence_counter
        ∧ (s.set_root_dir fs).fs = fs) := by
  refine ⟨?_, ?_, ?_⟩
  · intro s
    simp [ExperimentStorage.set_root_dir, searchMaxBranch, searchMaxSequence,
      Fs.rootChildren, Fs.hasBranch, listMax,
      ExperimentStorage.get_current_experiment_dir, expDirNameOf]
  · intro s c1 c2
    have hb : searchMaxBranch ⟨true, [(s.date_str, c1), (s.date_str ++ ['-', '2'], c2)]⟩
        s.date_str = 2 := by
      simp [searchMaxBranch, Fs.rootChildren, parseBranchName_self,
        parseBranchName_dash s.date_str ['2'] (by simp) (by decide), listMax,
        digitsToNat]
    constructor
    · simp [ExperimentStorage.set_root_dir, hb]
    · simp [ExperimentStorage.set_root_dir, hb,
        ExperimentStorage.get_current_experiment_dir, expDirNameOf]
      decide
  · intro fs s h
    simp [ExperimentStorage.set_root_dir, h]

/-- Counterexample to claim C3 as stated: a storage whose scan recovered
sequence 5 keeps branch 1 / sequence 5 when `set_root_dir` is given a
non-existent root — the state is NOT re-derived to branch 1 / sequence 0. -/
theorem set_root_dir_missing_root_keeps_state :
    ((ExperimentStorage.construct ⟨true, [(['d'], ["image_005".toList])]⟩
        ['d']).set_root_dir ⟨false, []⟩).sequence_counter = 5
    ∧ ¬ (((ExperimentStorage.construct ⟨true, [(['d'], ["image_005".toList])]⟩
          ['d']).set_root_dir ⟨false, []⟩).branch_number = 1
        ∧ ((ExperimentStorage.construct ⟨true, [(['d'], ["image_005".toList])]⟩
          ['d']).set_root_dir ⟨false, []⟩).sequence_counter = 0) := by
  decide

/-- Witness for `set_root_dir_rescan` at concrete inputs. -/
theorem set_root_dir_rescan_witness :
    ((ExperimentStorage.construct ⟨true, []⟩ ['d']).set_root_dir ⟨true, []⟩).branch_number = 1
    ∧ (Fs.rootExists ⟨false, []⟩ = false)
    ∧ ((ExperimentStorage.construct ⟨true, []⟩ ['d']).set_root_dir
        ⟨false, []⟩).branch_number
        = (ExperimentStorage.construct ⟨true, []⟩ ['d']).branch_number := by
  refine ⟨(set_root_dir_rescan.1 (ExperimentStorage.construct ⟨true, []⟩ ['d'])).1, rfl, ?_⟩
  exact (set_root_dir_rescan.2.2 ⟨false, []⟩ (ExperimentStorage.construct ⟨true, []⟩ ['d'])
    rfl).1

/-- Claim C4: when the scan of the current branch finds 5 as the highest
`image_nnn` suffix (gaps tolerated: only the maximum matters), the next
`start_new_sequence` targets and creates `image_006`; and after
`increment_branch` (which resets the counter to 0 from any value) the next
`start_new_sequence` yields `image_001`. -/
theorem start_new_sequence_numbering :
    (∀ (fs : Fs) (s : ExperimentStorage),
        fs.rootExists = true →
        searchMaxSequence fs (expDirNameOf s.date_str (searchMaxBranch fs s.date_str)) = 5 →
          (s.set_root_dir fs).sequence_counter = 5
          ∧ ((s.set_root_dir fs).start_new_sequence).sequence_counter = 6
          ∧ ((s.set_root_dir fs).start_new_sequence).get_current_sequence_dir
              = "image_006".toList
          ∧ ((s.set_root_dir fs).start_new_sequence).fs.hasSubdir
              (((s.set_root_dir fs).start_new_sequence).get_current_experiment_dir)
              ("image_006".toList) = true)
    ∧ (∀ s : ExperimentStorage,
        (s.increment_branch).sequence_counter = 0
        ∧ (s.increment_branch.start_new_sequence).sequence_counter = 1
        ∧ (s.increment_branch.start_new_sequence).get_current_sequence_dir
            = "image_001".toList) := by
  constructor
  · intro fs s hroot hmax
    have h5 : (s.set_root_dir fs).sequence_counter = 5 := by
      simp [ExperimentStorage.set_root_dir, hroot, hmax]
    refine ⟨h5, ?_, ?_, ?_⟩
    · simp [ExperimentStorage.start_new_sequence, h5]
    · simp [ExperimentStorage.start_new_sequence, h5,
        ExperimentStorage.get_current_sequence_dir]
      decide
    · have hname : seqDirNameOf 6 = "image_006".toList := by decide
      simp only [ExperimentStorage.start_new_sequence, h5,
        ExperimentStorage.get_current_experiment_dir, hname]
      exact Fs.hasSubdir_mkSubdir _ _ _ (Fs.hasBranch_mkBranch _ _)
  · intro s
    refine ⟨rfl, rfl, ?_⟩
    simp [ExperimentStorage.increment_branch, ExperimentStorage.start_new_sequence,
      ExperimentStorage.get_current_sequence_dir]
    decide

/-- Witness for `start_new_sequence_numbering`: a root whose branch holds
`image_002` and `image_005` (a gap), so the maximum suffix is 5 and the next
sequence directory is `image_006`. -/
theorem start_new_sequence_numbering_witness :
    Fs.rootExists ⟨true, [(['d'], ["image_002".toList, "image_005".toList])]⟩ = true
    ∧ searchMaxSequence ⟨true, [(['d'], ["image_002".toList, "image_005".toList])]⟩
        (expDirNameOf ['d']
          (searchMaxBranch ⟨true, [(['d'], ["image_002".toList, "image_005".toList])]⟩ ['d']))
        = 5
    ∧ (((⟨⟨true, []⟩, ['d'], 1, 0⟩ : ExperimentStorage).set_root_dir
        ⟨true, [(['d'], ["image_002".toList, "image_005".toList])]⟩).start_new_sequence).get_current_sequence_dir
        = "image_006".toList := by
  refine ⟨rfl, by decide, ?_⟩
  exact (start_new_sequence_numbering.1
    ⟨true, [(['d'], ["image_002".toList, "image_005".toList])]⟩
    ⟨⟨true, []⟩, ['d'], 1, 0⟩ rfl (by decide)).2.2.1

/-- Claim C6 (code bug): `save_frame`'s fail-fast guard tests only whether the
currently targeted sequence directory exists on disk, not whether a sequence
was started.  After a fresh construction over a root already containing
`image_005`, the recovered counter is 5 and that directory exists, so
`save_frame` succeeds — silently writing into the previous run's sequence
directory — although `start_new_sequence` was never called.  Over an empty
root the guard does raise as the claim states. -/
theorem save_frame_guard_is_existence_check :
    (ExperimentStorage.construct ⟨true, [("251012".toList, ["image_005".toList])]⟩
        ("251012".toList)).sequence_counter = 5
    ∧ (ExperimentStorage.construct ⟨true, [("251012".toList, ["image_005".toList])]⟩
        ("251012".toList)).save_frame
        = Except.ok ⟨"251012".toList, "image_005".toList, 5⟩
    ∧ (ExperimentStorage.construct ⟨true, []⟩ ("251012".toList)).save_frame
        = Except.error () := by
  exact ⟨by decide, rfl, rfl⟩

/-- Claim C9 (amended): `start_new_sequence` preserves the branch number and
strictly increases the sequence counter; `increment_branch` strictly increases
the branch number but resets the sequence counter to 0 — a decrease whenever
the counter was positive — so only the pair (branch, sequence) is
lexicographically monotonic under the non-scanning operations, while
`set_root_dir` re-derives both values from the filesystem scan. -/
theorem counters_monotonic_amended (s : ExperimentStorage) :
    (s.start_new_sequence).branch_number = s.branch_number
    ∧ s.sequence_counter < (s.start_new_sequence).sequence_counter
    ∧ s.branch_number < (s.increment_branch).branch_number
    ∧ (s.increment_branch).sequence_counter = 0
    ∧ Prod.Lex (· < ·) (· < ·) (s.branch_number, s.sequence_counter)
        ((s.start_new_sequence).branch_number, (s.start_new_sequence).sequence_counter)
    ∧ Prod.Lex (· < ·) (· < ·) (s.branch_number, s.sequence_counter)
        ((s.increment_branch).branch_number, (s.increment_branch).sequence_counter) := by
  refine ⟨rfl, Nat.lt_succ_self _, Nat.lt_succ_self _, rfl, ?_, ?_⟩
  · exact Prod.Lex.right _ (Nat.lt_succ_self _)
  · exact Prod.Lex.left _ _ (Nat.lt_succ_self _)

/-- Counterexample to claim C9 as stated: `increment_branch` on a storage whose
sequence counter is 5 drops the counter to 0, a strict decrease — so it is not
true that no operation ever decrements either value. -/
theorem increment_branch_decrements_sequence :
    ((ExperimentStorage.construct ⟨true, [("251012".toList, ["image_005".toList])]⟩
        ("251012".toList)).increment_branch).sequence_counter
      < (ExperimentStorage.construct ⟨true, [("251012".toList, ["image_005".toList])]⟩
        ("251012".toList)).sequence_counter := by
  decide

/-- Claim C8 (amended): the reassertion of the last-known exposure, gain and
processing-enabled settings is performed by `PreviewViewModel.resume_preview`,
which writes them to the device (in that order) before clearing the worker's
paused flag; `PreviewWorker.resume` itself performs no device write, and the
`MainWindow` sequence-finished handler calls the worker's `resume` directly,
without any reassertion. -/
theorem resume_preview_reasserts (vm : PVMState) (w : Worker) (d : Device) :
    (resume_preview vm w d).1.2 = { d with exposure := vm.exposure, gain := vm.gain }
    ∧ (resume_preview vm w d).1.1
        = { w with isPaused := false, processingEnabled := vm.claheEnabled }
    ∧ (resume_preview vm w d).2
        = [REv.setExpo vm.exposure, REv.setGain vm.gain, REv.setProc vm.claheEnabled,
            REv.unpaused]
    ∧ (worker_resume_call w d).1.2 = d
    ∧ (worker_resume_call w d).1.1 = { w with isPaused := false }
    ∧ (on_sequence_finished w d).1.2 = d := by
  exact ⟨rfl, rfl, rfl, rfl, rfl, rfl⟩

/-- Counterexample to claim C8 as stated: with the view model's last-known
settings (50, 0, off) and a device left by the sequencer at exposure 100 and
gain 5, the actual resume path (`MainWindow._on_sequence_finished` calling
`PreviewWorker.resume`) unpauses the worker while the device settings remain
those of the sequencer — nothing is reasserted before the loop runs again. -/
theorem resume_does_not_reassert :
    (on_sequence_finished ⟨true, false, true, true⟩ ⟨100, 5, false⟩).1.1.isPaused = false
    ∧ (on_sequence_finished ⟨true, false, true, true⟩ ⟨100, 5, false⟩).1.2
        = ⟨100, 5, false⟩
    ∧ (on_sequence_finished ⟨true, false, true, true⟩ ⟨100, 5, false⟩).1.2.exposure
        ≠ (⟨50, 0, false⟩ : PVMState).exposure := by
  refine ⟨rfl, rfl, by decide⟩

end RheedCapture
